import Mathlib

/-!
Verification of the value printer in `src/libexpr/print.cc`.

Shallow embedding conventions:
- C++ `std::string_view` / `std::string` values are `List Char`; `std::ostream`
  output is an accumulated `List Char`.
- `size_t` quantities are `Nat`; where `size_t` subtraction can wrap, the
  wraparound is modelled explicitly by `sizeTSub`, and the implicit narrowing
  conversion `size_t -> unsigned int` at call sites of `printElided`
  (whose parameter type is `unsigned int`) is modelled by `toUnsignedInt`.
- `abort()` is modelled as the `none` result; a normal return producing output
  is `some`. `output.flush()` and `checkInterrupt()` perform I/O and
  cooperative cancellation and have no observable effect in this pure model.
- Facilities from headers that are not part of this source slice
  (`english.hh`, `eval.hh`, `store-api.hh`, `terminal.hh`) are modelled from
  the spec; each such definition carries a doc comment saying so.
-/

/-- The apostrophe character (codepoint 39). -/
def squoteChar : Char := Char.ofNat 39

/-- Value of `std::numeric_limits<size_t>::max()` on the 64-bit target;
used as the "unbounded" sentinel for the count fields of `PrintOptions`. -/
def sizeTMax : Nat := 2 ^ 64 - 1

/-- Wrapping subtraction on `size_t` (64-bit): `a - b` as C++ computes it. -/
def sizeTSub (a b : Nat) : Nat := (a + (2 ^ 64 - b % 2 ^ 64)) % 2 ^ 64

/-- The implicit conversion `size_t -> unsigned int` (32-bit) applied when a
`size_t` expression is passed for the `unsigned int value` parameter of
`printElided`. -/
def toUnsignedInt (n : Nat) : Nat := n % 2 ^ 32

/-- ANSI escape constants from `ansicolor.hh`. -/
def ANSI_NORMAL : List Char := "\x1b[0m".data

/-- ANSI faint attribute. -/
def ANSI_FAINT : List Char := "\x1b[2m".data

/-- ANSI red color. -/
def ANSI_RED : List Char := "\x1b[31;1m".data

/-- ANSI green color. -/
def ANSI_GREEN : List Char := "\x1b[32;1m".data

/-- ANSI blue color. -/
def ANSI_BLUE : List Char := "\x1b[34;1m".data

/-- ANSI magenta color. -/
def ANSI_MAGENTA : List Char := "\x1b[35;1m".data

/-- ANSI cyan color. -/
def ANSI_CYAN : List Char := "\x1b[36;1m".data

/-- Wrap `body` in a color pair when `ansiColors` is set (the common
`if (options.ansiColors) output << COLOR; ...; output << ANSI_NORMAL` idiom). -/
def colorWrap (ansiColors : Bool) (color body : List Char) : List Char :=
  if ansiColors then color ++ body ++ ANSI_NORMAL else body

/-- Modelled from the spec: `pluralize` (from `english.hh`, outside this source
slice) writes the count followed by the singular word iff the count equals 1,
else the plural word (elision notices read e.g. "2 attributes"). -/
def pluralize (count : Nat) (single plural : List Char) : List Char :=
  (Nat.repr count).data ++ " ".data ++ (if count == 1 then single else plural)

/-- `printElided` from print.cc: the elision notice
`«<count> <single-or-plural> elided»`, faint when colored. Its `value`
parameter has C++ type `unsigned int`; call sites pass narrowed `size_t`
expressions (see `toUnsignedInt`). -/
def printElided (value : Nat) (single plural : List Char) (ansiColors : Bool) :
    List Char :=
  (if ansiColors then ANSI_FAINT else [])
    ++ "«".data ++ pluralize value single plural ++ " elided»".data
    ++ (if ansiColors then ANSI_NORMAL else [])

/-- One step of the escaping `if`-chain in the loop body of
`printLiteralString`: how character `c` is written, where `rest` is the part
of the string after `c`. The C++ lookahead `*(i+1) == '\x7b'` reads one byte
past the end when `c` is the final character (see `stringAccesses`); in this
codebase the backing buffer is NUL-terminated in practice so that byte is
never `\x7b`, which is what `rest.head?` yields for the empty tail. -/
def escapeStep (c : Char) (rest : List Char) : List Char :=
  if c == '"' || c == '\\' then ['\\', c]
  else if c == '\n' then ['\\', 'n']
  else if c == '\r' then ['\\', 'r']
  else if c == '\t' then ['\\', 't']
  else if c == '$' && rest.head? == some '\x7b' then ['\\', c]
  else [c]

/-- The character loop of `printLiteralString`: `s` is the remaining input,
`charsPrinted` counts characters already printed, `totalLen` is
`string.length()`. On budget exhaustion it closes the quote and emits the
byte-count elision notice (returning early, so the trailing `ANSI_NORMAL` of
the non-elided path is skipped, exactly as in the C++). -/
def printLiteralStringGo (maxLength totalLen : Nat) (ansiColors : Bool) :
    List Char → Nat → List Char
  | [], _ => ['"'] ++ (if ansiColors then ANSI_NORMAL else [])
  | c :: cs, charsPrinted =>
    if charsPrinted ≥ maxLength then
      '"' :: ' ' ::
        printElided (toUnsignedInt (sizeTSub totalLen charsPrinted))
          "byte".data "bytes".data ansiColors
    else
      escapeStep c cs ++ printLiteralStringGo maxLength totalLen ansiColors cs (charsPrinted + 1)

/-- `printLiteralString` from print.cc (three-argument form). -/
def printLiteralString (s : List Char) (maxLength : Nat) (ansiColors : Bool) :
    List Char :=
  (if ansiColors then ANSI_MAGENTA else [])
    ++ '"' :: printLiteralStringGo maxLength s.length ansiColors s 0

/-- The unlimited two-argument overload of `printLiteralString`. -/
def printLiteralStringUnlimited (s : List Char) : List Char :=
  printLiteralString s sizeTMax false

/-- Positions (0-based offsets) of the string that the loop of
`printLiteralString` dereferences: each examined character position, plus —
whenever the examined character is `$` — the position one past it
(the C++ evaluates `*(i+1)` without a bounds check, short-circuited only by
`*i == '$'`). The second argument is the current position, which always equals
`charsPrinted`. -/
def stringAccesses (maxLength : Nat) : List Char → Nat → List Nat
  | [], _ => []
  | c :: cs, idx =>
    if idx ≥ maxLength then []
    else
      idx :: (if c == '$' then [idx + 1] else [])
        ++ stringAccesses maxLength cs (idx + 1)

/-- `printLiteralBool` from print.cc. -/
def printLiteralBool (b : Bool) : List Char :=
  if b then "true".data else "false".data

/-- `isReservedKeyword` from print.cc. -/
def isReservedKeyword (s : List Char) : Bool :=
  s == "if".data || s == "then".data || s == "else".data || s == "assert".data
    || s == "with".data || s == "let".data || s == "in".data || s == "rec".data
    || s == "inherit".data

/-- Character class of the per-character loop shared by `printIdentifier` and
`isVarName`: letters, digits, underscore, apostrophe, hyphen. -/
def varNameBodyChar (c : Char) : Bool :=
  ('a' ≤ c && c ≤ 'z') || ('A' ≤ c && c ≤ 'Z') || ('0' ≤ c && c ≤ '9')
    || c == '_' || c == squoteChar || c == '-'

/-- `isVarName` from print.cc. -/
def isVarName (s : List Char) : Bool :=
  match s with
  | [] => false
  | c :: _ =>
    if isReservedKeyword s then false
    else if ('0' ≤ c && c ≤ '9') || c == '-' || c == squoteChar then false
    else s.all varNameBodyChar

/-- `printAttributeName` from print.cc: bare if `isVarName`, else quoted via
the unlimited `printLiteralString` overload. -/
def printAttributeName (name : List Char) : List Char :=
  if isVarName name then name else printLiteralStringUnlimited name

/-- `isImportantAttrName` from print.cc. -/
def isImportantAttrName (s : List Char) : Bool :=
  s == "type".data || s == "_type".data

/-- Heap addresses stand for `Value *` pointers: identity, not structure,
drives the `seen` set exactly as in the C++. -/
abbrev Addr := Nat

/-- Result of resolving a derivation's store path (`printDerivation` looks up
`drvPath` and calls `state.coerceToStorePath` / `store->printStorePath`, all
outside this source slice). Modelled from the spec: resolving may force a
nested value and can fail; on failure the caught error marker is rendered. -/
inductive DrvPathRes where
  | noAttr
  | resolved (path : List Char)
  | failed (msg : List Char)
deriving DecidableEq

/-- The payload a `Value` holds, dispatched on by `Printer::print`'s `switch`
on `v.type()`.  Containers hold addresses of their children (a list slot may
be a null pointer).  The thunk constructors additionally carry the outcome of
forcing them, since `EvalState::forceValue` is outside this source slice
(modelled from the spec: force returns the concrete value or raises an
evaluation error).  `cFloat` carries its display text, since the numeric
formatting policy is the stream's, outside this slice.  `cExternal` carries
the text of the external value's self-description (`v.external->print`).
`cFunUnknown` / `cThunkUnknown` model a function- resp. thunk-tagged value
whose subtag none of the `isLambda`/`isPrimOp`/`isPrimOpApp` resp.
`isBlackhole`/`isThunk`/`isApp` tests recognize (the defensive `abort()`
branches); `cUnknownTag` models a value whose `v.type()` falls outside the
enumerated cases of the `switch` (its `default:` branch). -/
inductive Cell where
  | cInt (n : Int)
  | cFloat (text : List Char)
  | cBool (b : Bool)
  | cString (s : List Char)
  | cPath (p : List Char)
  | cNull
  | cAttrs (attrs : List (List Char × Addr))
  | cList (elems : List (Option Addr))
  | cLambda (info : Option (Option (List Char) × List Char))
  | cPrimOp (doc : Option (List Char))
  | cPrimOpApp (doc : Option (List Char))
  | cFunUnknown
  | cBlackhole
  | cThunk (result : Cell)
  | cThunkFail (msg : List Char)
  | cThunkUnknown
  | cExternal (text : List Char)
  | cUnknownTag
deriving DecidableEq

/-- Modelled from the spec: `force(value)` returns the concrete (weak-head
normal form) value or raises an evaluation error.  Forcing is in-place in the
C++ (`state.forceValue(v, ...)`), so the forced value keeps the address of the
cell it replaces.  Non-thunk cells are already in WHNF; a blackhole raises the
evaluator's infinite-recursion error. -/
def forceResult : Cell → Except (List Char) Cell
  | Cell.cThunk r => Except.ok r
  | Cell.cThunkFail m => Except.error m
  | Cell.cBlackhole => Except.error "infinite recursion encountered".data
  | c => Except.ok c

/-- `PrintOptions` from print.hh; `size_t` count fields are `Nat` with
`sizeTMax` as the "unbounded" sentinel. -/
structure PrintOptions where
  force : Bool
  maxDepth : Nat
  maxAttrs : Nat
  maxListItems : Nat
  maxStringLength : Nat
  ansiColors : Bool
  trackRepeated : Bool
  derivationPaths : Bool
deriving DecidableEq

/-- The printer's environment: the value heap plus the collaborator
capabilities of `EvalState` that `printAttrs`/`printDerivation` consult.
`isDerivation` and `drvPath` are modelled from the spec (duck-typed derivation
recognition and store-path resolution are externally supplied capabilities). -/
structure Env where
  heap : List Cell
  isDerivation : List (List Char × Addr) → Bool
  drvPath : List (List Char × Addr) → DrvPathRes
  options : PrintOptions

/-- The mutable per-call state of `Printer`: the optional `seen` set of
container identities (present iff `trackRepeated`) and the two global running
counters. -/
structure PrSt where
  seen : Option (List Addr)
  attrsPrinted : Nat
  listItemsPrinted : Nat
deriving DecidableEq

/-- `Printer::printRepeated`. -/
def printRepeated (ansiColors : Bool) : List Char :=
  colorWrap ansiColors ANSI_MAGENTA "«repeated»".data

/-- `Printer::printNullptr`. -/
def printNullptr (ansiColors : Bool) : List Char :=
  colorWrap ansiColors ANSI_MAGENTA "«nullptr»".data

/-- `Printer::printInt` (`output << v.integer`). -/
def printInt (ansiColors : Bool) (n : Int) : List Char :=
  colorWrap ansiColors ANSI_CYAN (Int.repr n).data

/-- `Printer::printFloat`; the text is carried by the cell (see `Cell`). -/
def printFloat (ansiColors : Bool) (text : List Char) : List Char :=
  colorWrap ansiColors ANSI_CYAN text

/-- `Printer::printBool`. -/
def printBool (ansiColors : Bool) (b : Bool) : List Char :=
  colorWrap ansiColors ANSI_CYAN (printLiteralBool b)

/-- `Printer::printPath` (emitted verbatim, unescaped). -/
def printPath (ansiColors : Bool) (p : List Char) : List Char :=
  colorWrap ansiColors ANSI_GREEN p

/-- `Printer::printNull`. -/
def printNull (ansiColors : Bool) : List Char :=
  colorWrap ansiColors ANSI_CYAN "null".data

/-- `Printer::printUnknown`. -/
def printUnknown (ansiColors : Bool) : List Char :=
  colorWrap ansiColors ANSI_RED "«unknown»".data

/-- `Printer::printError_`: the caught-error inline marker `«<message>»`. -/
def printErrorMarker (ansiColors : Bool) (msg : List Char) : List Char :=
  colorWrap ansiColors ANSI_RED ("«".data ++ msg ++ "»".data)

/-- `Printer::printDerivation`: look up and resolve the `drvPath` attribute
(which can fail; the `catch (BaseError &)` renders the caught error marker,
and in that case nothing of the `«derivation...»` text has been emitted,
since the throw happens before any output). -/
def printDerivation (env : Env) (attrs : List (List Char × Addr)) : List Char :=
  match env.drvPath attrs with
  | DrvPathRes.failed msg => printErrorMarker env.options.ansiColors msg
  | DrvPathRes.noAttr =>
    colorWrap env.options.ansiColors ANSI_GREEN "«derivation»".data
  | DrvPathRes.resolved p =>
    colorWrap env.options.ansiColors ANSI_GREEN
      ("«derivation ".data ++ p ++ "»".data)

/-- Modelled from the spec: `filterANSIEscapes` (from `terminal.hh`, outside
this source slice) strips control/escape sequences from position text before
embedding it. -/
def filterANSIEscapes (s : List Char) : List Char :=
  s.filter (fun c => 32 ≤ c.toNat)

/-- `Printer::printFunction`: `abort()` on an unrecognized function subtag is
the `none` result.  A `PrimOp`'s own `operator<<` text resp. a partially
applied primop's underlying descriptor is carried by the cell; the `nullptr`
fallback is the literal `primop`. -/
def printFunction (ansiColors : Bool) : Cell → Option (List Char)
  | Cell.cLambda info =>
    some (colorWrap ansiColors ANSI_BLUE
      ("«lambda".data
        ++ (match info with
            | none => []
            | some (nm, pos) =>
              (match nm with
               | some n => ' ' :: n
               | none => [])
                ++ " @ ".data ++ filterANSIEscapes pos)
        ++ "»".data))
  | Cell.cPrimOp doc =>
    some (colorWrap ansiColors ANSI_BLUE
      ("«".data ++ (match doc with | some t => t | none => "primop".data)
        ++ "»".data))
  | Cell.cPrimOpApp doc =>
    some (colorWrap ansiColors ANSI_BLUE
      ("«partially applied ".data
        ++ (match doc with | some t => t | none => "primop".data) ++ "»".data))
  | _ => none

/-- `Printer::printThunk`: blackholes render the hedged marker, pending
thunks and unevaluated applications render `«thunk»`, anything else is the
defensive `abort()` (`none`). -/
def printThunk (ansiColors : Bool) : Cell → Option (List Char)
  | Cell.cBlackhole =>
    some (colorWrap ansiColors ANSI_RED "«potential infinite recursion»".data)
  | Cell.cThunk _ =>
    some (colorWrap ansiColors ANSI_MAGENTA "«thunk»".data)
  | Cell.cThunkFail _ =>
    some (colorWrap ansiColors ANSI_MAGENTA "«thunk»".data)
  | _ => none

/-- Byte-wise lexicographic `operator<` of `std::string`
(`char_traits<char>` compares as unsigned char). -/
def strLt : List Char → List Char → Bool
  | [], [] => false
  | [], _ :: _ => true
  | _ :: _, [] => false
  | a :: as, b :: bs =>
    if a.toNat < b.toNat then true
    else if b.toNat < a.toNat then false
    else strLt as bs

/-- `operator<` of `std::pair<std::string, Value *>`, the comparator of the
plain `std::sort` branch of `printAttrs`. -/
def attrPairLt (x y : List Char × Addr) : Bool :=
  strLt x.1 y.1 || (x.1 == y.1 && x.2 < y.2)

/-- `ImportantFirstAttrNameCmp` from print.cc: lexicographic on the tuple
`(!isImportant, name)` (so `type`/`_type` sort before all other keys). -/
def importantFirstAttrNameLt (x y : List Char × Addr) : Bool :=
  let xi := !(isImportantAttrName x.1)
  let yi := !(isImportantAttrName y.1)
  (!xi && yi) || (xi == yi && strLt x.1 y.1)

/-- Insert into a sorted list under strict comparator `lt` (helper of
`sortByLt`). -/
def sortInsertLt {α : Type} (lt : α → α → Bool) (x : α) : List α → List α
  | [] => [x]
  | y :: ys => if lt y x then y :: sortInsertLt lt x ys else x :: y :: ys

/-- `std::sort` with strict comparator `lt`, realized as insertion sort: for
a strict total order (attribute names within one set are distinct) the sorted
sequence is unique, so any correct sorting algorithm models it. -/
def sortByLt {α : Type} (lt : α → α → Bool) : List α → List α
  | [] => []
  | x :: xs => sortInsertLt lt x (sortByLt lt xs)

/-- The attribute enumeration loop of `Printer::printAttrs` over the sorted
entries; `total` is `sorted.size()` and `recur` prints a child at
`depth + 1`.  On budget exhaustion: one elision notice computed from the
global running counter, then `break`. -/
def attrsLoop (env : Env) (recur : Addr → PrSt → Option (List Char × PrSt))
    (total : Nat) : List (List Char × Addr) → PrSt → Option (List Char × PrSt)
  | [], st => some ([], st)
  | (name, b) :: rest, st =>
    if st.attrsPrinted ≥ env.options.maxAttrs then
      some (printElided (toUnsignedInt (sizeTSub total st.attrsPrinted))
        "attribute".data "attributes".data env.options.ansiColors, st)
    else
      match recur b st with
      | none => none
      | some (childOut, st2) =>
        let st3 := { st2 with attrsPrinted := st2.attrsPrinted + 1 }
        match attrsLoop env recur total rest st3 with
        | none => none
        | some (restOut, st4) =>
          some (printAttributeName name ++ " = ".data ++ childOut
            ++ "; ".data ++ restOut, st4)

/-- Body of `Printer::printAttrs` after the `seen` check: derivation
shortcut, else the depth-guarded enumeration (`canDescend` is
`depth < options.maxDepth`), else the empty-body placeholder. -/
def printAttrsBody (env : Env) (recur : Addr → PrSt → Option (List Char × PrSt))
    (canDescend : Bool) (attrs : List (List Char × Addr)) (st : PrSt) :
    Option (List Char × PrSt) :=
  if env.options.force && env.options.derivationPaths && env.isDerivation attrs then
    some (printDerivation env attrs, st)
  else if canDescend then
    let lt := if env.options.maxAttrs == sizeTMax then attrPairLt
              else importantFirstAttrNameLt
    match attrsLoop env recur attrs.length (sortByLt lt attrs) st with
    | none => none
    | some (body, st2) => some ("\x7b ".data ++ body ++ "\x7d".data, st2)
  else some ("\x7b ... \x7d".data, st)

/-- `Printer::printAttrs`: first `if (seen && !seen->insert(&v).second)` —
note the insertion happens here, before the derivation and depth checks. -/
def printAttrs (env : Env) (recur : Addr → PrSt → Option (List Char × PrSt))
    (canDescend : Bool) (a : Addr) (attrs : List (List Char × Addr))
    (st : PrSt) : Option (List Char × PrSt) :=
  match st.seen with
  | some s =>
    if a ∈ s then some (printRepeated env.options.ansiColors, st)
    else printAttrsBody env recur canDescend attrs { st with seen := some (a :: s) }
  | none => printAttrsBody env recur canDescend attrs st

/-- The element loop of `Printer::printList`; `total` is `v.listSize()`.
A null slot renders `«nullptr»` without recursion. -/
def listLoop (env : Env) (recur : Addr → PrSt → Option (List Char × PrSt))
    (total : Nat) : List (Option Addr) → PrSt → Option (List Char × PrSt)
  | [], st => some ([], st)
  | e :: rest, st =>
    if st.listItemsPrinted ≥ env.options.maxListItems then
      some (printElided (toUnsignedInt (sizeTSub total st.listItemsPrinted))
        "item".data "items".data env.options.ansiColors, st)
    else
      match (match e with
             | some b => recur b st
             | none => some (printNullptr env.options.ansiColors, st)) with
      | none => none
      | some (elemOut, st2) =>
        let st3 := { st2 with listItemsPrinted := st2.listItemsPrinted + 1 }
        match listLoop env recur total rest st3 with
        | none => none
        | some (restOut, st4) => some (elemOut ++ ' ' :: restOut, st4)

/-- Body of `Printer::printList` after the `seen` check: `[ ` is written
unconditionally, then the depth-guarded loop or the `... ` placeholder,
then `]`. -/
def printListBody (env : Env) (recur : Addr → PrSt → Option (List Char × PrSt))
    (canDescend : Bool) (elems : List (Option Addr)) (st : PrSt) :
    Option (List Char × PrSt) :=
  if canDescend then
    match listLoop env recur elems.length elems st with
    | none => none
    | some (body, st2) => some ("[ ".data ++ body ++ "]".data, st2)
  else some ("[ ... ]".data, st)

/-- `Printer::printList`: `if (seen && v.listSize() && !seen->insert(&v).second)`
— the `seen` check (and insertion) is short-circuited away for an empty
list. -/
def printList (env : Env) (recur : Addr → PrSt → Option (List Char × PrSt))
    (canDescend : Bool) (a : Addr) (elems : List (Option Addr)) (st : PrSt) :
    Option (List Char × PrSt) :=
  match st.seen with
  | some s =>
    if elems.length ≠ 0 then
      if a ∈ s then some (printRepeated env.options.ansiColors, st)
      else printListBody env recur canDescend elems { st with seen := some (a :: s) }
    else printListBody env recur canDescend elems st
  | none => printListBody env recur canDescend elems st

/-- The `switch (v.type())` of `Printer::print`.  A dangling address (absent
heap cell) is undefined behavior in C++ and is mapped to the unrecognized
tag.  The `default:` branch renders `«unknown»`. -/
def printDispatch (env : Env) (recur : Addr → PrSt → Option (List Char × PrSt))
    (canDescend : Bool) (a : Addr) (c : Cell) (st : PrSt) :
    Option (List Char × PrSt) :=
  match c with
  | Cell.cInt n => some (printInt env.options.ansiColors n, st)
  | Cell.cFloat t => some (printFloat env.options.ansiColors t, st)
  | Cell.cBool b => some (printBool env.options.ansiColors b, st)
  | Cell.cString s =>
    some (printLiteralString s env.options.maxStringLength env.options.ansiColors, st)
  | Cell.cPath p => some (printPath env.options.ansiColors p, st)
  | Cell.cNull => some (printNull env.options.ansiColors, st)
  | Cell.cAttrs attrs => printAttrs env recur canDescend a attrs st
  | Cell.cList es => printList env recur canDescend a es st
  | Cell.cLambda _ | Cell.cPrimOp _ | Cell.cPrimOpApp _ | Cell.cFunUnknown =>
    match printFunction env.options.ansiColors c with
    | none => none
    | some o => some (o, st)
  | Cell.cBlackhole | Cell.cThunk _ | Cell.cThunkFail _ | Cell.cThunkUnknown =>
    match printThunk env.options.ansiColors c with
    | none => none
    | some o => some (o, st)
  | Cell.cExternal t => some (t, st)
  | Cell.cUnknownTag => some (printUnknown env.options.ansiColors, st)

/-- One node visit of `Printer::print(Value &, size_t depth)`:
`output.flush()` and `checkInterrupt()` have no observable effect in the pure
model; if `force` is set, forcing failure is caught exactly here and rendered
as the inline error marker. -/
def printNode (env : Env) (recur : Addr → PrSt → Option (List Char × PrSt))
    (canDescend : Bool) (a : Addr) (st : PrSt) : Option (List Char × PrSt) :=
  let c := env.heap.getD a Cell.cUnknownTag
  if env.options.force then
    match forceResult c with
    | Except.error e => some (printErrorMarker env.options.ansiColors e, st)
    | Except.ok c2 => printDispatch env recur canDescend a c2 st
  else
    printDispatch env recur canDescend a c st

/-- `Printer::print(Value &, size_t depth)`, with the depth argument carried
as `remDepth = options.maxDepth - depth` so that the recursion is structural:
the C++ guard `depth < options.maxDepth` is `remDepth ≠ 0` (entry is at depth
0, and descent only happens under the guard, so `depth ≤ maxDepth` along every
path and the two presentations coincide); recursing at `depth + 1` is
recursing at `remDepth - 1`. -/
def printV (env : Env) (remDepth : Nat) (a : Addr) (st : PrSt) :
    Option (List Char × PrSt) :=
  match remDepth with
  | 0 => printNode env (fun _ s => some ([], s)) false a st
  | d + 1 => printNode env (fun b s => printV env d b s) true a st

/-- The per-call state reset of the public `Printer::print(Value &)`:
counters to zero, a fresh empty `seen` set iff `trackRepeated`. -/
def initialPrSt (opts : PrintOptions) : PrSt :=
  { seen := if opts.trackRepeated then some [] else none
    attrsPrinted := 0
    listItemsPrinted := 0 }

/-- `printValue` from print.cc: a whole top-level call, returning the full
output text (or `none` if the call aborts). -/
def printValue (env : Env) (a : Addr) : Option (List Char) :=
  match printV env env.options.maxDepth a (initialPrSt env.options) with
  | none => none
  | some (o, _) => some o

/-- Claim-side definition, written from the spec's words (§4.1 / C4): how one
character is escaped — `"` and `\` backslash-prefixed, newline as `\n`, CR as
`\r`, tab as `\t`, a `$` immediately followed by an opening brace
backslash-prefixed, and no other character altered. -/
def escCharSpec (c : Char) (rest : List Char) : List Char :=
  if c == '"' then ['\\', '"']
  else if c == '\\' then ['\\', '\\']
  else if c == '\n' then ['\\', 'n']
  else if c == '\r' then ['\\', 'r']
  else if c == '\t' then ['\\', 't']
  else if c == '$' && rest.head? == some '\x7b' then ['\\', '$']
  else [c]

/-- Claim-side definition: the escaped rendering of a whole string per the
spec's escaping rules. -/
def escapeSpec : List Char → List Char
  | [] => []
  | c :: cs => escCharSpec c cs ++ escapeSpec cs

/-- Claim-side definition: the escaped rendering of the first `k` characters
of a string (the lookahead for `$` still sees the true continuation of the
string, as the code's does). -/
def escapePrefixSpec : Nat → List Char → List Char
  | 0, _ => []
  | _ + 1, [] => []
  | k + 1, c :: cs => escCharSpec c cs ++ escapePrefixSpec k cs

/-- Baseline options for the concrete test fixtures: everything unbounded,
small depth bound, no forcing, no colors, no repeat tracking. -/
def optsBase : PrintOptions :=
  { force := false, maxDepth := 5, maxAttrs := sizeTMax,
    maxListItems := sizeTMax, maxStringLength := sizeTMax,
    ansiColors := false, trackRepeated := false, derivationPaths := false }

/-- Derivation oracle that recognizes nothing. -/
def noDeriv : List (List Char × Addr) → Bool := fun _ => false

/-- Store-path oracle for fixtures without a drvPath attribute. -/
def noDrv : List (List Char × Addr) → DrvPathRes := fun _ => DrvPathRes.noAttr

/-- C1 fixture: an attribute set containing a list containing a thunk whose
forcing raises "boom", printed with `force`. -/
def envC1 : Env :=
  { heap := [Cell.cAttrs [("xs".data, 1)], Cell.cList [some 2],
             Cell.cThunkFail "boom".data],
    isDerivation := noDeriv, drvPath := noDrv,
    options := { optsBase with force := true } }

/-- C1 witness fixture: a single thunk whose forcing raises "err". -/
def envC1w : Env :=
  { heap := [Cell.cThunkFail "err".data],
    isDerivation := noDeriv, drvPath := noDrv,
    options := { optsBase with force := true } }

/-- C2 fixture: an outer two-element list whose first element is a
three-element list, printed with `maxListItems = 3`; the inner list consumes
the whole global item budget, so the outer list's elision notice is computed
from a counter larger than the outer list's size. -/
def envC2 : Env :=
  { heap := [Cell.cList [some 1, some 2],
             Cell.cList [some 3, some 4, some 5],
             Cell.cInt 9, Cell.cInt 1, Cell.cInt 2, Cell.cInt 3],
    isDerivation := noDeriv, drvPath := noDrv,
    options := { optsBase with maxListItems := 3, maxDepth := 4 } }

/-- C2 fixture (attribute variant): three keys with `maxAttrs = 3`; the
nested set under key `a` consumes the global attribute budget, so the outer
notice reports 0 while two keys were elided. -/
def envC2b : Env :=
  { heap := [Cell.cAttrs [("a".data, 1), ("b".data, 2), ("c".data, 3)],
             Cell.cAttrs [("x".data, 4), ("y".data, 5)],
             Cell.cInt 7, Cell.cInt 8, Cell.cInt 1, Cell.cInt 2],
    isDerivation := noDeriv, drvPath := noDrv,
    options := { optsBase with maxAttrs := 3 } }

/-- C5 counterexample fixture: a derivation-shaped attribute set printed with
`maxDepth = 0`, `force` and `derivationPaths` enabled. -/
def envC5 : Env :=
  { heap := [Cell.cAttrs []],
    isDerivation := fun _ => true, drvPath := noDrv,
    options :=
      { optsBase with force := true, derivationPaths := true, maxDepth := 0 } }

/-- C5 witness fixture: a nonempty list printed with `maxDepth = 0`. -/
def envC5w : Env :=
  { heap := [Cell.cList [some 1], Cell.cInt 7],
    isDerivation := noDeriv, drvPath := noDrv,
    options := { optsBase with maxDepth := 0, trackRepeated := true } }

/-- C6 fixture: a function-tagged value with an unrecognized subtag. -/
def envC6f : Env :=
  { heap := [Cell.cFunUnknown], isDerivation := noDeriv, drvPath := noDrv,
    options := optsBase }

/-- C6 fixture: a thunk-tagged value with an unrecognized subtag. -/
def envC6t : Env :=
  { heap := [Cell.cThunkUnknown], isDerivation := noDeriv, drvPath := noDrv,
    options := optsBase }

/-- C6 fixture: a value whose tag is outside the `switch`'s enumerated
cases. -/
def envC6u : Env :=
  { heap := [Cell.cUnknownTag], isDerivation := noDeriv, drvPath := noDrv,
    options := optsBase }

/-- C8 fixture: a self-referential attribute set (its only attribute points
back to the set itself), printed with `trackRepeated`. -/
def envC8 : Env :=
  { heap := [Cell.cAttrs [("self".data, 0)]],
    isDerivation := noDeriv, drvPath := noDrv,
    options := { optsBase with trackRepeated := true, maxDepth := 8 } }

/-- C9 fixture: the set at address 2 is first reached at depth 2 (under keys
`a.x`) with `maxDepth = 2`, then again at depth 1 (under key `b`); repeat
tracking is on. -/
def envC9 : Env :=
  { heap := [Cell.cAttrs [("a".data, 1), ("b".data, 2)],
             Cell.cAttrs [("x".data, 2)],
             Cell.cAttrs [("k".data, 3)],
             Cell.cInt 5],
    isDerivation := noDeriv, drvPath := noDrv,
    options := { optsBase with trackRepeated := true, maxDepth := 2 } }

theorem escapeStep_eq_spec (c : Char) (rest : List Char) :
    escapeStep c rest = escCharSpec c rest := by
  by_cases h1 : c = '"'
  · subst h1; rfl
  by_cases h2 : c = '\\'
  · subst h2; rfl
  by_cases h3 : c = '$'
  · subst h3; rfl
  simp [escapeStep, escCharSpec, h1, h2, h3]

theorem printLiteralStringGo_notrunc (m tot : Nat) (s : List Char) :
    ∀ cp : Nat, cp + s.length ≤ m →
      printLiteralStringGo m tot false s cp = escapeSpec s ++ ['"'] := by
  induction s with
  | nil => intro cp _; simp [printLiteralStringGo, escapeSpec]
  | cons c cs ih =>
    intro cp h
    simp only [List.length_cons] at h
    have hl : ¬ cp ≥ m := by omega
    simp only [printLiteralStringGo, if_neg hl]
    rw [ih (cp + 1) (by omega), escapeStep_eq_spec]
    simp [escapeSpec, List.append_assoc]

theorem printLiteralStringGo_trunc (m tot : Nat) (s : List Char) :
    ∀ cp : Nat, cp ≤ m → m < cp + s.length →
      printLiteralStringGo m tot false s cp
        = escapePrefixSpec (m - cp) s
            ++ '"' :: ' ' ::
              printElided (toUnsignedInt (sizeTSub tot m))
                "byte".data "bytes".data false := by
  induction s with
  | nil => intro cp h1 h2; simp only [List.length_nil] at h2; omega
  | cons c cs ih =>
    intro cp h1 h2
    by_cases hge : cp ≥ m
    · have hcp : cp = m := le_antisymm h1 hge
      subst hcp
      simp [printLiteralStringGo, hge, escapePrefixSpec, Nat.sub_self]
    · have heq : m - cp = (m - (cp + 1)) + 1 := by omega
      simp only [List.length_cons] at h2
      simp only [printLiteralStringGo, if_neg hge]
      rw [ih (cp + 1) (by omega) (by omega), escapeStep_eq_spec, heq]
      simp [escapePrefixSpec, List.append_assoc]

/-- C4: within the printed prefix (here: a string short enough that no
truncation occurs), every occurrence of double quote, backslash, newline, CR,
tab, and the `$` of a `$`-brace sequence is backslash-escaped exactly as the
spec says (per `escCharSpec`), and no other character is altered. -/
theorem c4_string_escaping (s : List Char) (m : Nat) (h : s.length ≤ m) :
    printLiteralString s m false = '"' :: (escapeSpec s ++ ['"']) := by
  unfold printLiteralString
  rw [printLiteralStringGo_notrunc m s.length s 0 (by omega)]
  simp

/-- Witness for C4 at a concrete string exercising quote, backslash and the
dollar-brace escape. -/
theorem c4_string_escaping_w :
    printLiteralString "a\"b$\x7bc\\d".data 20 false
      = '"' :: (escapeSpec "a\"b$\x7bc\\d".data ++ ['"']) :=
  c4_string_escaping "a\"b$\x7bc\\d".data 20 (by decide)

/-- C3 (counterexample): for a string of length `2 ^ 32` and limit 0, the
elision notice reports `(L - M) mod 2 ^ 32 = 0` bytes — not the `L - M =
2 ^ 32` remaining bytes the claim requires — because `printElided`'s `value`
parameter has type `unsigned int` and the `size_t` difference is narrowed. -/
theorem c3_counterexample_narrowing :
    printLiteralString (List.replicate (2 ^ 32) 'a') 0 false
        = '"' :: '"' :: ' ' :: printElided 0 "byte".data "bytes".data false
      ∧ (List.replicate (2 ^ 32) 'a').length - 0 ≠ 0 := by
  constructor
  · unfold printLiteralString
    rw [printLiteralStringGo_trunc 0 (List.replicate (2 ^ 32) 'a').length
      (List.replicate (2 ^ 32) 'a') 0
      (Nat.le_refl 0) (by rw [List.length_replicate]; norm_num)]
    have harg : toUnsignedInt (sizeTSub (List.replicate (2 ^ 32) 'a').length 0) = 0 := by
      rw [List.length_replicate]
      norm_num [toUnsignedInt, sizeTSub]
    rw [harg, Nat.sub_self]
    rfl
  · rw [List.length_replicate]
    norm_num

/-- C3 (amended): truncating a string of length `L` at limit `M < L` emits
exactly the escaped rendering of the first `M` characters between the quotes,
then an elision notice whose reported count is the 64-bit difference `L - M`
narrowed to `unsigned int` (equal to `L - M` whenever `L - M < 2 ^ 32`), with
the singular word used iff the reported count equals 1 (the `pluralize`
contract, second conjunct). -/
theorem c3_truncation_amended :
    (∀ (s : List Char) (m : Nat), m < s.length →
        printLiteralString s m false
          = '"' :: (escapePrefixSpec m s
              ++ '"' :: ' ' ::
                printElided (toUnsignedInt (sizeTSub s.length m))
                  "byte".data "bytes".data false))
    ∧ ∀ (n : Nat) (sg pl : List Char),
        pluralize n sg pl
          = (Nat.repr n).data ++ " ".data ++ (if n = 1 then sg else pl) := by
  constructor
  · intro s m h
    unfold printLiteralString
    rw [printLiteralStringGo_trunc m s.length s 0 (Nat.zero_le m) (by omega)]
    simp
  · intro n sg pl
    by_cases h : n = 1 <;> simp [pluralize, h]

/-- Witness for C3's amended theorem at a concrete string and limit. -/
theorem c3_truncation_amended_w :
    printLiteralString "abc".data 1 false
      = '"' :: (escapePrefixSpec 1 "abc".data
          ++ '"' :: ' ' ::
            printElided (toUnsignedInt (sizeTSub "abc".data.length 1))
              "byte".data "bytes".data false) :=
  c3_truncation_amended.1 "abc".data 1 (by decide)

/-- C10: on the one-character string `$`, the escaping loop of
`printLiteralString` dereferences position 1, one past the end of the string
(the unchecked `*(i+1)` lookahead), so the claim that it never reads out of
bounds fails on the code. -/
theorem c10_oob_read :
    stringAccesses sizeTMax "$".data 0 = [0, 1]
      ∧ 1 ∈ stringAccesses sizeTMax "$".data 0
      ∧ ¬ 1 < "$".data.length := by
  refine ⟨by decide, by decide, by decide⟩

theorem isReservedKeyword_iff (s : List Char) :
    isReservedKeyword s = true ↔
      (s = "if".data ∨ s = "then".data ∨ s = "else".data ∨ s = "assert".data
        ∨ s = "with".data ∨ s = "let".data ∨ s = "in".data ∨ s = "rec".data
        ∨ s = "inherit".data) := by
  simp [isReservedKeyword, or_assoc]

theorem varNameBodyChar_iff (c : Char) :
    varNameBodyChar c = true ↔
      (('a' ≤ c ∧ c ≤ 'z') ∨ ('A' ≤ c ∧ c ≤ 'Z') ∨ ('0' ≤ c ∧ c ≤ '9')
        ∨ c = '_' ∨ c = squoteChar ∨ c = '-') := by
  simp [varNameBodyChar, or_assoc]

/-- C7: an attribute key renders bare iff it is nonempty, not a reserved
keyword, does not start with a digit, hyphen or apostrophe, and consists only
of letters, digits, underscore, apostrophe and hyphen; `foo-bar'2` (written
with `squoteChar` for the apostrophe) is bare, `2bad` and `if` are quoted
string literals, and `or` is bare. -/
theorem c7_attr_key_quoting :
    (∀ s : List Char, isVarName s = true ↔
        (s ≠ [] ∧
         ¬(s = "if".data ∨ s = "then".data ∨ s = "else".data
           ∨ s = "assert".data ∨ s = "with".data ∨ s = "let".data
           ∨ s = "in".data ∨ s = "rec".data ∨ s = "inherit".data) ∧
         (∀ c0 ∈ s.head?,
            ¬(('0' ≤ c0 ∧ c0 ≤ '9') ∨ c0 = '-' ∨ c0 = squoteChar)) ∧
         (∀ c ∈ s, ('a' ≤ c ∧ c ≤ 'z') ∨ ('A' ≤ c ∧ c ≤ 'Z')
           ∨ ('0' ≤ c ∧ c ≤ '9') ∨ c = '_' ∨ c = squoteChar ∨ c = '-')))
    ∧ (∀ s : List Char, isVarName s = true → printAttributeName s = s)
    ∧ printAttributeName ("foo-bar".data ++ squoteChar :: "2".data)
        = "foo-bar".data ++ squoteChar :: "2".data
    ∧ printAttributeName "2bad".data = '"' :: ("2bad".data ++ ['"'])
    ∧ printAttributeName "if".data = '"' :: ("if".data ++ ['"'])
    ∧ printAttributeName "or".data = "or".data := by
  refine ⟨?_, ?_, by decide, by decide, by decide, by decide⟩
  · intro s
    cases s with
    | nil => simp [isVarName]
    | cons c cs =>
      simp only [isVarName]
      split_ifs with hres hhead
      · simp only [Bool.false_eq_true, false_iff]
        intro hc
        exact hc.2.1 ((isReservedKeyword_iff _).mp hres)
      · simp only [Bool.false_eq_true, false_iff]
        intro hc
        have h3 := hc.2.2.1 c (by simp)
        exact h3 (by simpa [or_assoc] using hhead)
      · rw [List.all_eq_true]
        constructor
        · intro hall
          refine ⟨by simp, fun hd => hres ((isReservedKeyword_iff _).mpr hd),
            ?_, ?_⟩
          · intro c0 hc0
            have hc0' : c0 = c := by simpa [eq_comm] using hc0
            subst hc0'
            intro hbad
            exact hhead (by simpa [or_assoc] using hbad)
          · intro x hx
            exact (varNameBodyChar_iff x).mp (hall x hx)
        · rintro ⟨-, -, -, hclass⟩
          intro x hx
          exact (varNameBodyChar_iff x).mpr (hclass x hx)
  · intro s h
    simp [printAttributeName, h]

/-- Witness for C7 applying the bare-rendering implication at a concrete
key. -/
theorem c7_attr_key_quoting_w :
    printAttributeName "foo".data = "foo".data :=
  c7_attr_key_quoting.2.1 "foo".data (by decide)

/-- C1: when `force` is enabled and forcing the visited value raises an
evaluation error, `Printer::print` catches it exactly at that node, renders
it inline as the `«<message>»` marker and returns normally with the traversal
state untouched (first conjunct, for every environment, depth and state); in
particular a raising thunk inside a list inside an attribute set yields the
surrounding structure intact with one inline marker, and the whole call
completes (second conjunct). -/
theorem c1_force_error_contained :
    (∀ (env : Env) (rd : Nat) (a : Addr) (st : PrSt) (msg : List Char),
        env.options.force = true →
        forceResult (env.heap.getD a Cell.cUnknownTag) = Except.error msg →
        printV env rd a st
          = some (printErrorMarker env.options.ansiColors msg, st))
    ∧ printValue envC1 0 = some "\x7b xs = [ «boom» ]; \x7d".data := by
  constructor
  · intro env rd a st msg hf he
    simp only [List.getD_eq_getElem?_getD] at he
    cases rd <;> simp [printV, printNode, hf, he]
  · decide

/-- Witness for C1 applying the containment theorem to a concrete heap whose
root is a thunk raising "err". -/
theorem c1_force_error_contained_w :
    printV envC1w 2 0 (initialPrSt envC1w.options)
      = some (printErrorMarker envC1w.options.ansiColors "err".data,
          initialPrSt envC1w.options) :=
  c1_force_error_contained.1 envC1w 2 0 (initialPrSt envC1w.options)
    "err".data (by rfl) (by rfl)

/-- C2: the elision notice emitted when a container's enumeration stops is
computed as the container's size minus the *global* running counter (as
wrapping `size_t` arithmetic narrowed to `unsigned int`), not as the number
of that container's remaining children.  With `maxListItems = 3`, an outer
two-element list whose first element is a three-element list elides its one
remaining child with the notice `«4294967294 items elided»` (the narrowed
value of `2 - 4`); with `maxAttrs = 3`, an outer set whose first attribute
holds a two-attribute set reports `«0 attributes elided»` while two of its
three keys were elided. -/
theorem c2_elided_count_bug :
    printValue envC2 0 = some "[ [ 1 2 3 ] «4294967294 items elided»]".data
    ∧ printValue envC2b 0
        = some "\x7b a = \x7b x = 1; y = 2; \x7d; «0 attributes elided»\x7d".data
    ∧ toUnsignedInt (sizeTSub 2 4) = 4294967294
    ∧ (2 - 1 : Nat) = 1 ∧ (1 : Nat) ≠ 4294967294
    ∧ (3 - 1 : Nat) = 2 ∧ (2 : Nat) ≠ 0 := by
  refine ⟨by decide, by decide, by decide, rfl, by decide, rfl, by decide⟩

/-- C5 (counterexample): with `maxDepth = 0` but `force` and
`derivationPaths` enabled and a derivation-shaped attribute set, the printer
renders the derivation shortcut `«derivation»`, not the placeholder the claim
requires for every option record with `maxDepth = 0`. -/
theorem c5_counterexample_derivation_shortcut :
    envC5.options.maxDepth = 0
    ∧ printValue envC5 0 = some "«derivation»".data
    ∧ "«derivation»".data ≠ "\x7b ... \x7d".data := by
  refine ⟨rfl, by decide, by decide⟩

/-- C5 (amended): with `maxDepth = 0` a list always renders as the
placeholder `[ ... ]` regardless of contents and of the other option fields;
an attribute set renders as `\x7b ... \x7d` provided the derivation shortcut
does not apply (`force && derivationPaths && isDerivation` is false). -/
theorem c5_maxdepth_zero_amended :
    (∀ (env : Env) (a : Addr) (es : List (Option Addr)),
        env.heap.getD a Cell.cUnknownTag = Cell.cList es →
        env.options.maxDepth = 0 →
        printValue env a = some "[ ... ]".data)
    ∧ (∀ (env : Env) (a : Addr) (attrs : List (List Char × Addr)),
        env.heap.getD a Cell.cUnknownTag = Cell.cAttrs attrs →
        env.options.maxDepth = 0 →
        (env.options.force && env.options.derivationPaths
          && env.isDerivation attrs) = false →
        printValue env a = some "\x7b ... \x7d".data) := by
  constructor
  · intro env a es hcell hd
    unfold printValue
    rw [hd]
    simp only [printV, printNode, hcell]
    cases hf : env.options.force
    all_goals simp only [hf, forceResult, Bool.false_eq_true, if_false, if_true,
      printDispatch]
    all_goals unfold printList initialPrSt
    all_goals cases ht : env.options.trackRepeated
    all_goals simp [ht, printListBody]
    all_goals cases es <;> simp [printListBody]
  · intro env a attrs hcell hd hnd
    unfold printValue
    rw [hd]
    simp only [printV, printNode, hcell]
    cases hf : env.options.force with
    | false =>
      simp only [hf, Bool.false_eq_true, if_false, printDispatch]
      unfold printAttrs initialPrSt
      cases ht : env.options.trackRepeated <;>
        simp [ht, printAttrsBody, hf]
    | true =>
      have hnd2 : ¬(env.options.derivationPaths = true
          ∧ env.isDerivation attrs = true) := by
        rintro ⟨h1, h2⟩
        rw [hf, h1, h2] at hnd
        simp at hnd
      simp only [hf, forceResult, if_true, printDispatch]
      unfold printAttrs initialPrSt
      cases ht : env.options.trackRepeated <;>
        simp [ht, printAttrsBody, hf, hnd2]

/-- Witness for C5's amended theorem at a concrete environment. -/
theorem c5_maxdepth_zero_amended_w :
    printValue envC5w 0 = some "[ ... ]".data :=
  c5_maxdepth_zero_amended.1 envC5w 0 [some 1] (by decide) (by decide)

/-- C6 (counterexample): a value whose tag is outside the enumerated cases of
the dispatch `switch` is rendered as the ordinary output text `«unknown»` and
the call completes normally — the printer neither aborts nor propagates for
this case. -/
theorem c6_counterexample_unknown_rendered :
    printValue envC6u 0 = some "«unknown»".data
    ∧ printValue envC6u 0 ≠ none := by
  refine ⟨by decide, by decide⟩

/-- C6 (amended): an unrecognized *function* or *thunk* subtag reaching the
exhaustive renderer aborts (the defensive `abort()` branches of
`printFunction` / `printThunk`), while an unrecognized top-level value tag is
rendered as the `«unknown»` marker by the dispatch's `default:` branch. -/
theorem c6_fault_handling_amended :
    printValue envC6f 0 = none ∧ printValue envC6t 0 = none
    ∧ printValue envC6u 0 = some (printUnknown false) := by
  refine ⟨by decide, by decide, by decide⟩

/-- C8: with repeat tracking on, a container whose identity is already in
`seen` renders as the fixed `«repeated»` marker and returns with the state
unchanged — for any child-printing function whatsoever, so no recursion into
children and no budget consumption occurs (first two conjuncts; for lists the
container must be nonempty); the already-seen check is skipped for an empty
list, which renders `[ ]` even when its identity is in `seen` (third
conjunct); and printing a self-referential attribute set terminates with the
repeated occurrence rendered as the marker (fourth conjunct). -/
theorem c8_repeated_marker :
    (∀ (env : Env) (recur : Addr → PrSt → Option (List Char × PrSt))
        (canDescend : Bool) (a : Addr) (attrs : List (List Char × Addr))
        (st : PrSt) (s : List Addr), st.seen = some s → a ∈ s →
        printAttrs env recur canDescend a attrs st
          = some (printRepeated env.options.ansiColors, st))
    ∧ (∀ (env : Env) (recur : Addr → PrSt → Option (List Char × PrSt))
        (canDescend : Bool) (a : Addr) (es : List (Option Addr))
        (st : PrSt) (s : List Addr), st.seen = some s → es ≠ [] → a ∈ s →
        printList env recur canDescend a es st
          = some (printRepeated env.options.ansiColors, st))
    ∧ (∀ (env : Env) (recur : Addr → PrSt → Option (List Char × PrSt))
        (a : Addr) (st : PrSt) (s : List Addr), st.seen = some s → a ∈ s →
        printList env recur true a [] st = some ("[ ]".data, st))
    ∧ printValue envC8 0 = some "\x7b self = «repeated»; \x7d".data := by
  refine ⟨?_, ?_, ?_, by decide⟩
  · intro env recur cd a attrs st s hs hm
    simp [printAttrs, hs, hm]
  · intro env recur cd a es st s hs hne hm
    cases es with
    | nil => exact absurd rfl hne
    | cons e rest => simp [printList, hs, hm]
  · intro env recur a st s hs _
    simp [printList, hs, printListBody, listLoop]

/-- Witness for C8 applying the already-seen case at a concrete identity,
with a child printer that would abort if it were ever invoked. -/
theorem c8_repeated_marker_w :
    printAttrs envC8 (fun _ _ => none) true 0 [("self".data, 0)]
        { seen := some [0], attrsPrinted := 0, listItemsPrinted := 0 }
      = some (printRepeated envC8.options.ansiColors,
          { seen := some [0], attrsPrinted := 0, listItemsPrinted := 0 }) :=
  c8_repeated_marker.1 envC8 (fun _ _ => none) true 0 [("self".data, 0)]
    { seen := some [0], attrsPrinted := 0, listItemsPrinted := 0 } [0]
    rfl (by decide)

/-- C9 (counterexample): in `envC9` the set at address 2 is first reached at
depth `maxDepth` (rendered `\x7b ... \x7d`) and — contrary to the claim — is
marked as seen there, so its later encounter at a shallower depth renders the
`«repeated»` marker instead of enumerating its contents. -/
theorem c9_counterexample_seen_at_depth_limit :
    printValue envC9 0
      = some "\x7b a = \x7b x = \x7b ... \x7d; \x7d; b = «repeated»; \x7d".data
    ∧ "\x7b a = \x7b x = \x7b ... \x7d; \x7d; b = «repeated»; \x7d".data
        ≠ "\x7b a = \x7b x = \x7b ... \x7d; \x7d; b = \x7b k = 5; \x7d; \x7d".data := by
  refine ⟨by decide, by decide⟩

/-- C9 (amended): with repeat tracking on, `printAttrs` inserts the
container's identity into `seen` upon encountering it, *before* the depth
check, so a container first reached at `depth ≥ maxDepth` renders the
empty-body placeholder and is nevertheless marked as seen. -/
theorem c9_seen_inserted_before_depth_check :
    ∀ (env : Env) (recur : Addr → PrSt → Option (List Char × PrSt)) (a : Addr)
      (attrs : List (List Char × Addr)) (st : PrSt) (s : List Addr),
      st.seen = some s → a ∉ s →
      (env.options.force && env.options.derivationPaths
        && env.isDerivation attrs) = false →
      printAttrs env recur false a attrs st
        = some ("\x7b ... \x7d".data, { st with seen := some (a :: s) }) := by
  intro env recur a attrs st s hs hm hd
  simp [printAttrs, hs, hm, printAttrsBody, hd]

/-- Witness for C9's amended theorem at the `envC9` fixture state just before
address 2 is reached at the depth limit. -/
theorem c9_seen_inserted_before_depth_check_w :
    printAttrs envC9 (fun _ _ => none) false 2 [("k".data, 3)]
        { seen := some [1, 0], attrsPrinted := 0, listItemsPrinted := 0 }
      = some ("\x7b ... \x7d".data,
          { seen := some [2, 1, 0], attrsPrinted := 0, listItemsPrinted := 0 }) :=
  c9_seen_inserted_before_depth_check envC9 (fun _ _ => none) 2
    [("k".data, 3)]
    { seen := some [1, 0], attrsPrinted := 0, listItemsPrinted := 0 } [1, 0]
    rfl (by decide) (by decide)
